import Mathlib

/-
Shallow embedding of the debuggee MCP server (src/index.ts): the
`debug/start_session` orchestrator, its inspector-endpoint discovery promise,
the CDP protocol-session setup, the pause/resume event handlers, and the
module-level session registry.  Strings are modelled as `List Char`; machine
state that JavaScript mutates in place is passed explicitly.
-/

namespace Debuggee

/-- JavaScript regular-expression whitespace class `\s`, by code point. -/
def jsSpace (c : Char) : Bool :=
  let n := c.toNat
  n == 9 || n == 10 || n == 11 || n == 12 || n == 13 || n == 32 ||
  n == 160 || n == 5760 || (8192 ≤ n && n ≤ 8202) || n == 8232 || n == 8233 ||
  n == 8239 || n == 8287 || n == 12288 || n == 65279

/-- Longest leading run of non-whitespace characters: the greedy `[^\s]+`
part of the pattern `ws:\/\/[^\s]+` in src/index.ts line 84. -/
def takeNonSpace : List Char → List Char
  | [] => []
  | c :: cs => if jsSpace c then [] else c :: takeNonSpace cs

/-- Does the pattern `ws:\/\/[^\s]+` match at the start of the list?  If so,
return the (greedy) matched text, as the JS regex engine would. -/
def isWsAt : List Char → Option (List Char)
  | 'w' :: 's' :: ':' :: '/' :: '/' :: rest =>
    match takeNonSpace rest with
    | [] => none
    | d :: ds => some ('w' :: 's' :: ':' :: '/' :: '/' :: d :: ds)
  | _ => none

/-- `stderr.match (ws regex)` of src/index.ts line 84: leftmost match of
`ws:\/\/[^\s]+`, scanning start positions left to right. -/
def matchWsUrl : List Char → Option (List Char)
  | [] => none
  | c :: cs =>
    match isWsAt (c :: cs) with
    | some u => some u
    | none => matchWsUrl cs

/-- Decimal digit character, as produced by JavaScript number-to-string. -/
def digitChar (d : Nat) : Char :=
  match d with
  | 0 => '0' | 1 => '1' | 2 => '2' | 3 => '3' | 4 => '4'
  | 5 => '5' | 6 => '6' | 7 => '7' | 8 => '8' | _ => '9'

/-- Fuel-indexed decimal rendering of a positive natural (most significant
digit first); `natCharsAux f n` is the digits of `n` whenever `n ≤ f`. -/
def natCharsAux : Nat → Nat → List Char
  | _, 0 => []
  | 0, _ + 1 => []
  | f + 1, n + 1 => natCharsAux f ((n + 1) / 10) ++ [digitChar ((n + 1) % 10)]

/-- JavaScript `String(n)` for a natural number `n` (template-literal
interpolation of `process.pid`, `Date.now()` and the exit code). -/
def natChars (n : Nat) : List Char :=
  if n = 0 then ['0'] else natCharsAux n n

/-- Message of the rejection created by the `setTimeout` callback
(src/index.ts line 77). -/
def timeoutMsg : List Char := "Timeout waiting for inspector WebSocket URL".toList

/-- Message of the rejection created by the `exit` listener for a non-null
exit code (src/index.ts line 99). -/
def exitMsg (code : Nat) : List Char :=
  "Process exited with code ".toList ++ natChars code ++
    " before inspector URL was found".toList

/-- Events that can reach the discovery promise's executor, in delivery
order: a stderr `data` chunk, a spawn-level `error`, the `exit` event (with
`none` for a null exit code, i.e. termination by signal), and the firing of
the 10-second `setTimeout` timer. -/
inductive DiscEvent where
  | data (chunk : List Char)
  | error (msg : List Char)
  | exit (code : Option Nat)
  | timerFire
deriving DecidableEq

/-- How the wsUrl promise settles: `resolve(match[0])` or `reject(err)`,
the latter carrying the rejection's message. -/
inductive Outcome where
  | resolved (url : List Char)
  | rejected (msg : List Char)
deriving DecidableEq

/-- State of the discovery promise executor: the accumulated `stderr`
string, whether the timeout timer is still pending (i.e. `clearTimeout`
has not run and the timer has not fired), and the settled outcome, if any
(a JS promise settles at most once; later resolve/reject calls are
no-ops). -/
structure DiscState where
  buf : List Char
  timerActive : Bool
  settled : Option Outcome
deriving DecidableEq

/-- Initial executor state: empty `stderr`, timer armed, promise pending. -/
def initDisc : DiscState := DiscState.mk [] true none

/-- First resolve/reject wins: settle only if not already settled. -/
def settle (o : Option Outcome) (v : Outcome) : Option Outcome :=
  match o with
  | some x => some x
  | none => some v

/-- One event delivered to the listeners installed in src/index.ts lines
75–102.  The `data` handler always appends to `stderr` and re-matches the
cumulative buffer; on a match it calls `clearTimeout` and `resolve`.  The
`error` handler clears the timer and rejects with the error.  The `exit`
handler rejects only when the exit code is non-null.  The timer callback
runs only while the timer is still pending, and rejects with the fixed
timeout message. -/
def discStep (s : DiscState) : DiscEvent → DiscState
  | DiscEvent.data chunk =>
    let buf2 := s.buf ++ chunk
    match matchWsUrl buf2 with
    | some u => DiscState.mk buf2 false (settle s.settled (Outcome.resolved u))
    | none => DiscState.mk buf2 s.timerActive s.settled
  | DiscEvent.error m => DiscState.mk s.buf false (settle s.settled (Outcome.rejected m))
  | DiscEvent.exit (some code) =>
    DiscState.mk s.buf false (settle s.settled (Outcome.rejected (exitMsg code)))
  | DiscEvent.exit none => s
  | DiscEvent.timerFire =>
    if s.timerActive then
      DiscState.mk s.buf false (settle s.settled (Outcome.rejected timeoutMsg))
    else s

/-- Run the executor from a given state over a list of delivered events. -/
def runDiscFrom (s : DiscState) (evs : List DiscEvent) : DiscState :=
  evs.foldl discStep s

/-- Run the executor from the initial state. -/
def runDisc (evs : List DiscEvent) : DiscState :=
  runDiscFrom initDisc evs

/-- Does the handler associated with an event execute at all in state `s`?
The `data`, `error` and `exit` listeners are registered with `.on` and
never removed, so they always run; the timer callback runs only while the
timer is pending. -/
def handlerFires (s : DiscState) : DiscEvent → Bool
  | DiscEvent.timerFire => s.timerActive
  | _ => true

/-- Does the timeout callback execute at some point while delivering the
given events from state `s`? -/
def timerFiresDuring (s : DiscState) : List DiscEvent → Bool
  | [] => false
  | e :: es =>
    (match e with
     | DiscEvent.timerFire => s.timerActive
     | _ => false) || timerFiresDuring (discStep s e) es

/-- `generateSessionId` (src/index.ts lines 36–38):
`` `${process.pid}-${Date.now()}-${Math.random().toString(36).substring(2, 9)}` ``,
as a function of the server pid, the clock reading and the random suffix
string the call happened to draw. -/
def genSessionId (pid now : Nat) (rand : List Char) : List Char :=
  natChars pid ++ '-' :: (natChars now ++ '-' :: rand)

/-- Notifications the CDP client delivers to the two handlers installed in
src/index.ts lines 119–125; the paused payload is opaque, modelled by a
natural number. -/
inductive Notif where
  | paused (payload : Nat)
  | resumed
deriving DecidableEq

/-- Effect of one notification on `session.lastPaused`: the
`Debugger.paused` handler assigns the event, the `Debugger.resumed` handler
assigns `undefined`.  These two handlers are the only writes to
`lastPaused` anywhere in src/index.ts. -/
def applyNotif (_lastPaused : Option Nat) : Notif → Option Nat
  | Notif.paused p => some p
  | Notif.resumed => none

/-- A breakpoint record as declared in the `Session` type
(src/index.ts line 12). -/
structure Breakpoint where
  id : List Char
  file : List Char
  line : Nat
  column : Option Nat
deriving DecidableEq

/-- One session record (src/index.ts lines 7–14 and 111–117).  `bpRef`
models the object identity of the `new Map()` allocated for
`breakpoints` (which JS map object this session holds), while
`breakpoints` models that map's contents; `lastPaused` is absent
(`undefined`) at construction. -/
structure Session where
  id : List Char
  wsUrl : List Char
  pid : Nat
  bpRef : Nat
  breakpoints : List (List Char × Breakpoint)
  lastPaused : Option Nat
deriving DecidableEq

/-- JavaScript `Map.prototype.set`: update in place if the key exists,
otherwise append; never fails. -/
def mapSet {α : Type} (m : List (List Char × α)) (k : List Char) (v : α) :
    List (List Char × α) :=
  match m with
  | [] => [(k, v)]
  | (k2, v2) :: rest =>
    if k2 = k then (k, v) :: rest else (k2, v2) :: mapSet rest k v

/-- JavaScript `Map.prototype.get` (as an `Option`). -/
def mapGet {α : Type} (m : List (List Char × α)) (k : List Char) : Option α :=
  match m with
  | [] => none
  | (k2, v2) :: rest => if k2 = k then some v2 else mapGet rest k

/-- The module-level registry `const sessions = new Map()` together with
the allocator counter that mints fresh map-object identities. -/
structure OrchState where
  sessions : List (List Char × Session)
  nextRef : Nat
deriving DecidableEq

/-- Registry state at server start: no sessions registered. -/
def orchInit : OrchState := OrchState.mk [] 0

/-- The supported `runner` enumeration (src/index.ts line 33). -/
inductive Runner where
  | node
  | tsx
  | tsNode
deriving DecidableEq

/-- Validated arguments of the `debug/start_session` tool
(src/index.ts lines 28–34). -/
structure Config where
  entry : List Char
  args : List (List Char)
  cwd : Option (List Char)
  inspectBrk : Bool
  runner : Runner
deriving DecidableEq

/-- The `switch (runner)` of src/index.ts lines 48–68: the spawn command
and argument list for each runner. -/
def launchCommand (cfg : Config) : List Char × List (List Char) :=
  let flag := if cfg.inspectBrk then "--inspect-brk".toList else "--inspect".toList
  match cfg.runner with
  | Runner.tsx => ("tsx".toList, flag :: cfg.entry :: cfg.args)
  | Runner.tsNode =>
    ("node".toList, flag :: "-r".toList :: "ts-node/register".toList :: cfg.entry :: cfg.args)
  | Runner.node => ("node".toList, flag :: cfg.entry :: cfg.args)

/-- Environment of one `debug/start_session` invocation: everything the
outside world decides during the call.  `discEvents` is the sequence of
events the spawned child delivers to the discovery promise (spawn failures
arrive as `DiscEvent.error`); `connect`, `dbgEnable` and `rtEnable` are the
outcomes of `CDP({target})`, `Debugger.enable()` and `Runtime.enable()`,
each carrying an error message on failure; `serverPid`, `now` and `rand`
feed `generateSessionId`; `childPid` is the spawned process id. -/
structure Env where
  discEvents : List DiscEvent
  connect : Except (List Char) Unit
  dbgEnable : Except (List Char) Unit
  rtEnable : Except (List Char) Unit
  childPid : Nat
  serverPid : Nat
  now : Nat
  rand : List Char

/-- Result payload of the tool call: the JSON object of src/index.ts
lines 133–139 on success, or the `isError` content of lines 144–153. -/
structure StartPayload where
  sessionId : List Char
  wsUrl : List Char
  pid : Nat
  runner : Runner
  entry : List Char
deriving DecidableEq

/-- The tool call's returned content: success payload or error-flagged
message. -/
inductive ToolResult where
  | ok (payload : StartPayload)
  | error (msg : List Char)
deriving DecidableEq

/-- Whether the CDP connection was opened during the call, and whether any
code path closed it (src/index.ts contains no `client.close()` call). -/
structure ConnLedger where
  opened : Bool
  closed : Bool
deriving DecidableEq

/-- The fixed text prepended by the `catch` block (src/index.ts line 150). -/
def failMsgPre : List Char := "Failed to start debug session: ".toList

/-- The whole `debug/start_session` handler (src/index.ts lines 46–155),
as a function of the registry state, the validated arguments and the
environment.  The `try` body awaits the discovery promise, connects,
enables both domains, builds the session, installs the notification
handlers and only then runs `sessions.set`; any rejection is caught once
and returned as a single error-flagged result (no exception escapes the
handler).  `none` models the case in which the discovery promise never
settles, so the `await` never completes and the handler never returns. -/
def startSession (st : OrchState) (cfg : Config) (env : Env) :
    Option (OrchState × ToolResult × ConnLedger) :=
  match (runDisc env.discEvents).settled with
  | none => none
  | some (Outcome.rejected m) =>
    some (st, ToolResult.error (failMsgPre ++ m), ConnLedger.mk false false)
  | some (Outcome.resolved u) =>
    match env.connect with
    | Except.error m =>
      some (st, ToolResult.error (failMsgPre ++ m), ConnLedger.mk false false)
    | Except.ok _ =>
      match env.dbgEnable with
      | Except.error m =>
        some (st, ToolResult.error (failMsgPre ++ m), ConnLedger.mk true false)
      | Except.ok _ =>
        match env.rtEnable with
        | Except.error m =>
          some (st, ToolResult.error (failMsgPre ++ m), ConnLedger.mk true false)
        | Except.ok _ =>
          let sid := genSessionId env.serverPid env.now env.rand
          let s : Session := Session.mk sid u env.childPid st.nextRef [] none
          some (OrchState.mk (mapSet st.sessions sid s) (st.nextRef + 1),
                ToolResult.ok (StartPayload.mk sid u env.childPid cfg.runner cfg.entry),
                ConnLedger.mk true false)

/-- Message of the first failing stage of a `debug/start_session` call, in
the order the handler runs them, or `none` when every stage succeeds or
discovery never settles. -/
def firstFailure (env : Env) : Option (List Char) :=
  match (runDisc env.discEvents).settled with
  | none => none
  | some (Outcome.rejected m) => some m
  | some (Outcome.resolved _) =>
    match env.connect with
    | Except.error m => some m
    | Except.ok _ =>
      match env.dbgEnable with
      | Except.error m => some m
      | Except.ok _ =>
        match env.rtEnable with
        | Except.error m => some m
        | Except.ok _ => none

/-- Does `pat` match the start of `s`? -/
def leadEq : List Char → List Char → Bool
  | [], _ => true
  | _ :: _, [] => false
  | c :: cs, d :: ds => c = d && leadEq cs ds

/-- Does `pat` occur contiguously anywhere inside `s`? -/
def hasSeq (pat : List Char) : List Char → Bool
  | [] => leadEq pat []
  | d :: ds => leadEq pat (d :: ds) || hasSeq pat ds

/-- Shape of any text produced by a match of `ws:\/\/[^\s]+`: the scheme
followed by a nonempty run of non-whitespace characters. -/
def wsShape (w : List Char) : Prop :=
  ∃ t, t ≠ [] ∧ (∀ c ∈ t, jsSpace c = false) ∧
    w = 'w' :: 's' :: ':' :: '/' :: '/' :: t

/-- Executor-state invariant: the timer is pending exactly while the
promise is pending (every settling path runs `clearTimeout` or is the
timer's own one-shot firing). -/
def discInv (s : DiscState) : Prop := s.timerActive = true ↔ s.settled = none

/-- Registry invariant: every registered session's breakpoint-map identity
was minted by the allocator. -/
def regInv (st : OrchState) : Prop :=
  ∀ kv ∈ st.sessions, kv.2.bpRef < st.nextRef

/-- A sample registered session, for concrete-input theorems. -/
def sessA : Session := Session.mk ['a'] "ws://1".toList 1 0 [] none

/-- A second, different session carrying the same id, for concrete-input
theorems. -/
def sessB : Session := Session.mk ['a'] "ws://2".toList 2 1 [] none

/-- A sample validated configuration, for concrete-input theorems. -/
def cfgW : Config := Config.mk "app.js".toList [] none true Runner.node

/-- An environment in which the child never prints a `ws://` URL and the
10-second timer fires. -/
def envTimeout : Env :=
  Env.mk [DiscEvent.timerFire] (Except.ok ()) (Except.ok ()) (Except.ok ())
    42 9 100 ['x', 'y']

/-- An environment in which discovery and connection succeed but
`Debugger.enable()` rejects. -/
def envEnableFail : Env :=
  Env.mk [DiscEvent.data "ws://u ".toList] (Except.ok ())
    (Except.error "boom".toList) (Except.ok ()) 42 9 100 ['x', 'y']

/-- An environment in which every stage succeeds. -/
def envOk : Env :=
  Env.mk [DiscEvent.data "ws://u ".toList] (Except.ok ()) (Except.ok ())
    (Except.ok ()) 42 9 100 ['x', 'y']

/-- The session id `envOk` leads to: `9-100-xy`. -/
def sidW : List Char := "9-100-xy".toList

/-- The registry state after one successful start from `orchInit` under
`envOk`. -/
def stW : OrchState :=
  OrchState.mk [(sidW, Session.mk sidW "ws://u".toList 42 0 [] none)] 1

/-- The success payload of that same call. -/
def payW : StartPayload :=
  StartPayload.mk sidW "ws://u".toList 42 Runner.node "app.js".toList

/-- The session ids produced by two consecutive `debug/start_session`
calls from a fresh registry when both calls happen to draw the same
`Date.now()` reading and the same random suffix. -/
def twoStartIds : Option (List (List Char)) :=
  match startSession orchInit cfgW envOk with
  | some (st1, ToolResult.ok p1, _) =>
    match startSession st1 cfgW envOk with
    | some (_, ToolResult.ok p2, _) => some [p1.sessionId, p2.sessionId]
    | _ => none
  | _ => none

/- Helper lemmas about the embedded definitions. -/

theorem takeNonSpace_nonspace (l : List Char) :
    ∀ c ∈ takeNonSpace l, jsSpace c = false := by
  induction l with
  | nil => intro c hc; simp [takeNonSpace] at hc
  | cons d ds ih =>
    intro c hc
    by_cases hd : jsSpace d = true
    · simp [takeNonSpace, hd] at hc
    · simp only [takeNonSpace, hd, if_neg, Bool.false_eq_true, ite_false,
        List.mem_cons] at hc
      rcases hc with h | h
      · subst h; simpa using hd
      · exact ih c h

theorem isWsAt_shape (l u : List Char) (h : isWsAt l = some u) : wsShape u := by
  unfold isWsAt at h
  split at h
  · next rest =>
    cases ht : takeNonSpace rest with
    | nil => rw [ht] at h; simp at h
    | cons d ds =>
      rw [ht] at h
      simp only [Option.some.injEq] at h
      refine ⟨d :: ds, by simp, ?_, h.symm⟩
      intro c hc
      have : c ∈ takeNonSpace rest := by rw [ht]; exact hc
      exact takeNonSpace_nonspace rest c this
  · simp at h

theorem matchWsUrl_shape (l : List Char) :
    ∀ u, matchWsUrl l = some u → wsShape u := by
  induction l with
  | nil => intro u h; simp [matchWsUrl] at h
  | cons c cs ih =>
    intro u h
    unfold matchWsUrl at h
    cases hw : isWsAt (c :: cs) with
    | some w =>
      rw [hw] at h
      simp only [Option.some.injEq] at h
      exact h ▸ isWsAt_shape (c :: cs) w hw
    | none => rw [hw] at h; exact ih u h

theorem discStep_data_buf (s : DiscState) (c : List Char) :
    (discStep s (DiscEvent.data c)).buf = s.buf ++ c := by
  unfold discStep
  cases hm : matchWsUrl (s.buf ++ c) <;> simp [hm]

theorem discStep_settled_mono (s : DiscState) (e : DiscEvent) (o : Outcome)
    (h : s.settled = some o) : (discStep s e).settled = some o := by
  cases e with
  | data chunk =>
    unfold discStep
    cases hm : matchWsUrl (s.buf ++ chunk) <;> simp [hm, h, settle]
  | error m => simp [discStep, h, settle]
  | exit code => cases code <;> simp [discStep, h, settle]
  | timerFire =>
    unfold discStep
    by_cases ht : s.timerActive = true <;> simp [ht, h, settle]

theorem runDiscFrom_settled_mono (s : DiscState) (evs : List DiscEvent)
    (o : Outcome) (h : s.settled = some o) :
    (runDiscFrom s evs).settled = some o := by
  induction evs generalizing s with
  | nil => simpa [runDiscFrom] using h
  | cons e es ih =>
    have h2 := discStep_settled_mono s e o h
    simpa [runDiscFrom] using ih (discStep s e) h2

theorem discStep_inv (s : DiscState) (e : DiscEvent) (h : discInv s) :
    discInv (discStep s e) := by
  cases e with
  | data chunk =>
    unfold discStep
    cases hm : matchWsUrl (s.buf ++ chunk) with
    | none => simpa [hm, discInv] using h
    | some u =>
      cases hs : s.settled <;> simp [hm, discInv, settle, hs]
  | error m => cases hs : s.settled <;> simp [discInv, discStep, settle, hs]
  | exit code =>
    cases code with
    | none => simpa [discStep, discInv] using h
    | some k => cases hs : s.settled <;> simp [discInv, discStep, settle, hs]
  | timerFire =>
    unfold discStep
    by_cases ht : s.timerActive = true
    · have hs : s.settled = none := h.mp ht
      simp [ht, hs, discInv, settle]
    · simpa [ht] using h

theorem runDiscFrom_inv (s : DiscState) (evs : List DiscEvent)
    (h : discInv s) : discInv (runDiscFrom s evs) := by
  induction evs generalizing s with
  | nil => simpa [runDiscFrom] using h
  | cons e es ih =>
    simpa [runDiscFrom] using ih (discStep s e) (discStep_inv s e h)

theorem runDisc_inv (evs : List DiscEvent) : discInv (runDisc evs) :=
  runDiscFrom_inv initDisc evs (by simp [discInv, initDisc])

theorem runDiscFrom_data_buf (s : DiscState) (chunks : List (List Char)) :
    (runDiscFrom s (chunks.map DiscEvent.data)).buf = s.buf ++ chunks.flatten := by
  induction chunks generalizing s with
  | nil => simp [runDiscFrom]
  | cons c cs ih =>
    have step : runDiscFrom s ((c :: cs).map DiscEvent.data)
        = runDiscFrom (discStep s (DiscEvent.data c)) (cs.map DiscEvent.data) := by
      simp [runDiscFrom]
    rw [step, ih (discStep s (DiscEvent.data c)), discStep_data_buf]
    simp

theorem discStep_data_nomatch (s : DiscState) (c : List Char)
    (hm : matchWsUrl (s.buf ++ c) = none) :
    discStep s (DiscEvent.data c) = DiscState.mk (s.buf ++ c) s.timerActive s.settled := by
  unfold discStep
  simp [hm]

theorem discStep_data_match (s : DiscState) (c u : List Char)
    (hm : matchWsUrl (s.buf ++ c) = some u) :
    discStep s (DiscEvent.data c)
      = DiscState.mk (s.buf ++ c) false (settle s.settled (Outcome.resolved u)) := by
  unfold discStep
  simp [hm]

theorem runDiscFrom_data_nomatch (chunks : List (List Char)) :
    ∀ s : DiscState, s.settled = none → matchWsUrl s.buf = none →
    (runDiscFrom s (chunks.map DiscEvent.data)).settled = none →
    matchWsUrl (runDiscFrom s (chunks.map DiscEvent.data)).buf = none := by
  induction chunks with
  | nil => intro s _ hm _; simpa [runDiscFrom] using hm
  | cons c cs ih =>
    intro s hs _ hend
    have step : runDiscFrom s ((c :: cs).map DiscEvent.data)
        = runDiscFrom (discStep s (DiscEvent.data c)) (cs.map DiscEvent.data) := by
      simp [runDiscFrom]
    cases hm2 : matchWsUrl (s.buf ++ c) with
    | some u =>
      have hset : (discStep s (DiscEvent.data c)).settled = some (Outcome.resolved u) := by
        rw [discStep_data_match s c u hm2, hs]; rfl
      have := runDiscFrom_settled_mono (discStep s (DiscEvent.data c))
        (cs.map DiscEvent.data) (Outcome.resolved u) hset
      rw [step] at hend
      rw [this] at hend
      exact absurd hend (by simp)
    | none =>
      rw [step]
      rw [step] at hend
      refine ih (discStep s (DiscEvent.data c)) ?_ ?_ hend
      · rw [discStep_data_nomatch s c hm2, hs]
      · rw [discStep_data_nomatch s c hm2]; exact hm2

theorem runDiscFrom_data_settled (chunks : List (List Char)) :
    ∀ s : DiscState, s.settled = none → ∀ o : Outcome,
    (runDiscFrom s (chunks.map DiscEvent.data)).settled = some o →
    ∃ w, o = Outcome.resolved w ∧ wsShape w := by
  induction chunks with
  | nil =>
    intro s hs o hend
    rw [show runDiscFrom s ([].map DiscEvent.data) = s from rfl, hs] at hend
    exact absurd hend (by simp)
  | cons c cs ih =>
    intro s hs o hend
    have step : runDiscFrom s ((c :: cs).map DiscEvent.data)
        = runDiscFrom (discStep s (DiscEvent.data c)) (cs.map DiscEvent.data) := by
      simp [runDiscFrom]
    rw [step] at hend
    cases hm2 : matchWsUrl (s.buf ++ c) with
    | some u =>
      have hset : (discStep s (DiscEvent.data c)).settled = some (Outcome.resolved u) := by
        rw [discStep_data_match s c u hm2, hs]; rfl
      have hmono := runDiscFrom_settled_mono (discStep s (DiscEvent.data c))
        (cs.map DiscEvent.data) (Outcome.resolved u) hset
      rw [hmono] at hend
      have : o = Outcome.resolved u := by
        simpa using hend.symm
      exact ⟨u, this, matchWsUrl_shape (s.buf ++ c) u hm2⟩
    | none =>
      refine ih (discStep s (DiscEvent.data c)) ?_ o hend
      rw [discStep_data_nomatch s c hm2, hs]

theorem timerFiresDuring_none (rest : List DiscEvent) :
    ∀ (s : DiscState) (o : Outcome), discInv s → s.settled = some o →
    timerFiresDuring s rest = false := by
  induction rest with
  | nil => intro s o _ _; rfl
  | cons e es ih =>
    intro s o hinv hs
    have hta : s.timerActive = false := by
      cases hta : s.timerActive with
      | false => rfl
      | true => rw [hinv.mp hta] at hs; exact absurd hs (by simp)
    have hrec := ih (discStep s e) o (discStep_inv s e hinv)
      (discStep_settled_mono s e o hs)
    cases e <;> simp [timerFiresDuring, hta, hrec]

theorem mapGet_mapSet {α : Type} (m : List (List Char × α)) (k : List Char)
    (v : α) : mapGet (mapSet m k v) k = some v := by
  induction m with
  | nil => simp [mapSet, mapGet]
  | cons kv rest ih =>
    obtain ⟨k2, v2⟩ := kv
    by_cases hk : k2 = k
    · simp [mapSet, mapGet, hk]
    · simp [mapSet, mapGet, hk, ih]

theorem digitChar_inj (d1 d2 : Nat) (h1 : d1 < 10) (h2 : d2 < 10)
    (h : digitChar d1 = digitChar d2) : d1 = d2 := by
  have key : ∀ a : Fin 10, ∀ b : Fin 10,
      digitChar a.val = digitChar b.val → a.val = b.val := by decide
  exact key ⟨d1, h1⟩ ⟨d2, h2⟩ h

theorem digitChar_ne_dash (d : Nat) (h : d < 10) : digitChar d ≠ '-' := by
  have key : ∀ a : Fin 10, digitChar a.val ≠ '-' := by decide
  exact key ⟨d, h⟩

theorem natCharsAux_ne_nil (f n : Nat) (hn : n ≠ 0) (hf : n ≤ f) :
    natCharsAux f n ≠ [] := by
  cases f with
  | zero => omega
  | succ f =>
    cases n with
    | zero => omega
    | succ n => simp [natCharsAux]

theorem natCharsAux_inj (n1 : Nat) :
    ∀ f1 f2 n2 : Nat, n1 ≤ f1 → n2 ≤ f2 →
    natCharsAux f1 n1 = natCharsAux f2 n2 → n1 = n2 := by
  induction n1 using Nat.strong_induction_on with
  | _ n1 ih =>
    intro f1 f2 n2 h1 h2 heq
    cases n1 with
    | zero =>
      cases n2 with
      | zero => rfl
      | succ m =>
        have hnil : natCharsAux f1 0 = [] := by
          cases f1 <;> rfl
        rw [hnil] at heq
        exact absurd heq.symm (natCharsAux_ne_nil f2 (m + 1) (by omega) h2)
    | succ k =>
      cases n2 with
      | zero =>
        have hnil : natCharsAux f2 0 = [] := by
          cases f2 <;> rfl
        rw [hnil] at heq
        exact absurd heq (natCharsAux_ne_nil f1 (k + 1) (by omega) h1)
      | succ m =>
        cases f1 with
        | zero => omega
        | succ g1 =>
          cases f2 with
          | zero => omega
          | succ g2 =>
            have heq2 :
                natCharsAux g1 ((k + 1) / 10) ++ [digitChar ((k + 1) % 10)]
                  = natCharsAux g2 ((m + 1) / 10) ++ [digitChar ((m + 1) % 10)] := heq
            have hparts := List.append_inj' heq2 (by simp)
            have hdig : (k + 1) % 10 = (m + 1) % 10 := by
              have := hparts.2
              simp only [List.cons.injEq, and_true] at this
              exact digitChar_inj _ _ (Nat.mod_lt _ (by omega))
                (Nat.mod_lt _ (by omega)) this
            have hq1 : (k + 1) / 10 ≤ g1 := by
              have : (k + 1) / 10 < k + 1 := Nat.div_lt_self (by omega) (by omega)
              omega
            have hq2 : (m + 1) / 10 ≤ g2 := by
              have : (m + 1) / 10 < m + 1 := Nat.div_lt_self (by omega) (by omega)
              omega
            have hdiv : (k + 1) / 10 = (m + 1) / 10 :=
              ih ((k + 1) / 10) (Nat.div_lt_self (by omega) (by omega))
                g1 g2 ((m + 1) / 10) hq1 hq2 hparts.1
            have e1 := Nat.div_add_mod (k + 1) 10
            have e2 := Nat.div_add_mod (m + 1) 10
            omega

theorem natChars_inj (m n : Nat) (h : natChars m = natChars n) : m = n := by
  unfold natChars at h
  by_cases hm : m = 0
  · by_cases hn : n = 0
    · omega
    · rw [if_pos hm, if_neg hn] at h
      cases n with
      | zero => omega
      | succ k =>
        have hrep : natCharsAux (k + 1) (k + 1)
            = natCharsAux k ((k + 1) / 10) ++ [digitChar ((k + 1) % 10)] := rfl
        rw [hrep] at h
        have h2 : natCharsAux k ((k + 1) / 10) ++ [digitChar ((k + 1) % 10)]
            = [] ++ ['0'] := by simpa using h.symm
        have hparts := List.append_inj' h2 (by simp)
        have hAnil : natCharsAux k ((k + 1) / 10) = [] := hparts.1
        have hdig : digitChar ((k + 1) % 10) = '0' := by
          have := hparts.2
          simpa using this
        have hmod : (k + 1) % 10 = 0 :=
          digitChar_inj _ _ (Nat.mod_lt _ (by omega)) (by omega) hdig
        have hdivnil : (k + 1) / 10 = 0 := by
          by_contra hne
          have hle : (k + 1) / 10 ≤ k := by
            have : (k + 1) / 10 < k + 1 := Nat.div_lt_self (by omega) (by omega)
            omega
          exact natCharsAux_ne_nil k ((k + 1) / 10) hne hle hAnil
        have hlt : k + 1 < 10 := by
          have := (Nat.div_eq_zero_iff (by omega)).mp hdivnil
          omega
        have : (k + 1) % 10 = k + 1 := Nat.mod_eq_of_lt hlt
        omega
  · by_cases hn : n = 0
    · rw [if_neg hm, if_pos hn] at h
      cases m with
      | zero => omega
      | succ k =>
        have hrep : natCharsAux (k + 1) (k + 1)
            = natCharsAux k ((k + 1) / 10) ++ [digitChar ((k + 1) % 10)] := rfl
        rw [hrep] at h
        have h2 : natCharsAux k ((k + 1) / 10) ++ [digitChar ((k + 1) % 10)]
            = [] ++ ['0'] := by simpa using h
        have hparts := List.append_inj' h2 (by simp)
        have hAnil : natCharsAux k ((k + 1) / 10) = [] := hparts.1
        have hdivnil : (k + 1) / 10 = 0 := by
          by_contra hne
          have hle : (k + 1) / 10 ≤ k := by
            have : (k + 1) / 10 < k + 1 := Nat.div_lt_self (by omega) (by omega)
            omega
          exact natCharsAux_ne_nil k ((k + 1) / 10) hne hle hAnil
        have hdig : digitChar ((k + 1) % 10) = '0' := by
          have := hparts.2
          simpa using this
        have hmod : (k + 1) % 10 = 0 :=
          digitChar_inj _ _ (Nat.mod_lt _ (by omega)) (by omega) hdig
        have hlt : k + 1 < 10 := by
          have := (Nat.div_eq_zero_iff (by omega)).mp hdivnil
          omega
        have : (k + 1) % 10 = k + 1 := Nat.mod_eq_of_lt hlt
        omega
    · rw [if_neg hm, if_neg hn] at h
      exact natCharsAux_inj m m n n (le_refl m) (le_refl n) h

theorem natCharsAux_mem (f : Nat) :
    ∀ n : Nat, ∀ c ∈ natCharsAux f n, ∃ d, d < 10 ∧ c = digitChar d := by
  induction f with
  | zero =>
    intro n c hc
    cases n <;> simp [natCharsAux] at hc
  | succ f ih =>
    intro n c hc
    cases n with
    | zero => simp [natCharsAux] at hc
    | succ k =>
      have hrep : natCharsAux (f + 1) (k + 1)
          = natCharsAux f ((k + 1) / 10) ++ [digitChar ((k + 1) % 10)] := rfl
      rw [hrep] at hc
      rcases List.mem_append.mp hc with hA | hB
      · exact ih ((k + 1) / 10) c hA
      · refine ⟨(k + 1) % 10, Nat.mod_lt _ (by omega), ?_⟩
        simpa using hB

theorem natChars_no_dash (n : Nat) : ∀ c ∈ natChars n, c ≠ '-' := by
  intro c hc
  unfold natChars at hc
  by_cases hn : n = 0
  · rw [if_pos hn] at hc
    simp at hc
    subst hc
    decide
  · rw [if_neg hn] at hc
    obtain ⟨d, hd, hcd⟩ := natCharsAux_mem n n c hc
    subst hcd
    exact digitChar_ne_dash d hd

theorem dashSplit (a : List Char) :
    ∀ a2 b b2 : List Char, ('-' ∉ a) → ('-' ∉ a2) →
    a ++ '-' :: b = a2 ++ '-' :: b2 → a = a2 ∧ b = b2 := by
  induction a with
  | nil =>
    intro a2 b b2 _ ha2 heq
    cases a2 with
    | nil => simpa using heq
    | cons c cs =>
      simp only [List.nil_append, List.cons_append, List.cons.injEq] at heq
      exact absurd (by rw [heq.1]; exact List.mem_cons_self c cs) ha2
  | cons c cs ih =>
    intro a2 b b2 ha ha2 heq
    cases a2 with
    | nil =>
      simp only [List.nil_append, List.cons_append, List.cons.injEq] at heq
      exact absurd (by rw [← heq.1]; exact List.mem_cons_self c cs) ha
    | cons c2 cs2 =>
      simp only [List.cons_append, List.cons.injEq] at heq
      have hacs : '-' ∉ cs := fun hmem => ha (List.mem_cons_of_mem c hmem)
      have hacs2 : '-' ∉ cs2 := fun hmem => ha2 (List.mem_cons_of_mem c2 hmem)
      have := ih cs2 b b2 hacs hacs2 heq.2
      exact ⟨by rw [heq.1, this.1], this.2⟩

theorem genSessionId_inj (pid n1 n2 : Nat) (r1 r2 : List Char)
    (h : genSessionId pid n1 r1 = genSessionId pid n2 r2) :
    n1 = n2 ∧ r1 = r2 := by
  unfold genSessionId at h
  have hX : natChars n1 ++ '-' :: r1 = natChars n2 ++ '-' :: r2 := by
    have := List.append_cancel_left h
    simpa using this
  have hsplit := dashSplit (natChars n1) (natChars n2) r1 r2
    (fun hmem => natChars_no_dash n1 '-' hmem rfl)
    (fun hmem => natChars_no_dash n2 '-' hmem rfl) hX
  exact ⟨natChars_inj n1 n2 hsplit.1, hsplit.2⟩

/-- C2 (counterexample): with the chunk sequence `["ws://a", "b "]`, whose
concatenation contains the URI match `ws://ab`, discovery resolves with the
truncated address `ws://a`, not with `ws://ab`: the first chunk already
matches the pattern on the cumulative buffer, so resolution happens before
the rest of the URI arrives. -/
theorem c2_counterexample :
    (runDisc [DiscEvent.data "ws://a".toList, DiscEvent.data "b ".toList]).settled
      = some (Outcome.resolved "ws://a".toList) ∧
    matchWsUrl ("ws://a".toList ++ "b ".toList) = some "ws://ab".toList ∧
    "ws://a".toList ≠ "ws://ab".toList := by decide

/-- C2 (amended): for every sequence of output chunks whose concatenation
contains a substring matching the debug-endpoint URI pattern, discovery
resolves — matching is performed against the cumulative accumulated buffer
after each chunk, so a split never causes a missed match — and the
resolved value itself matches the pattern; it may however be a proper
prefix of the delivered URI when a chunk boundary falls inside the URI
after a non-whitespace character past the scheme. -/
theorem c2_split_chunk_discovery (chunks : List (List Char)) (u : List Char)
    (h : matchWsUrl chunks.flatten = some u) :
    ∃ w, (runDisc (chunks.map DiscEvent.data)).settled
        = some (Outcome.resolved w) ∧ wsShape w := by
  cases hend : (runDisc (chunks.map DiscEvent.data)).settled with
  | none =>
    have hbuf := runDiscFrom_data_buf initDisc chunks
    have hnm := runDiscFrom_data_nomatch chunks initDisc rfl rfl hend
    rw [hbuf] at hnm
    simp only [initDisc, List.nil_append] at hnm
    simp [hnm] at h
  | some o =>
    obtain ⟨w, ho, hshape⟩ := runDiscFrom_data_settled chunks initDisc rfl o hend
    exact ⟨w, by rw [ho], hshape⟩


/-- Concrete application of the C2 theorem: the URI split as
`"ws"` and `"://xy z"` is still discovered, in full. -/
theorem c2_split_chunk_discovery_witness :
    matchWsUrl (List.flatten ["ws".toList, "://xy z".toList])
        = some "ws://xy".toList ∧
    (∃ w, (runDisc (["ws".toList, "://xy z".toList].map DiscEvent.data)).settled
        = some (Outcome.resolved w) ∧ wsShape w) :=
  ⟨by decide,
   c2_split_chunk_discovery ["ws".toList, "://xy z".toList] "ws://xy".toList
     (by decide)⟩

/-- C3: a paused notification sets the session's last-paused snapshot to
that event's payload, a resumed notification clears it, and — since these
two handlers are the only writes — a fold of any delivered notification
sequence over the initial (absent) snapshot is non-empty exactly when the
last notification was a pause, holding that last pause's payload (so two
consecutive pauses leave the second payload). -/
theorem c3_pause_resume (evs : List Notif) (lp : Option Nat) (p q : Nat) :
    applyNotif lp (Notif.paused p) = some p ∧
    applyNotif lp Notif.resumed = none ∧
    (List.foldl applyNotif none evs = some q
      ↔ evs.getLast? = some (Notif.paused q)) := by
  refine ⟨rfl, rfl, ?_⟩
  induction evs using List.reverseRecOn with
  | nil => simp
  | append_singleton xs x ih =>
    rw [List.foldl_append]
    cases x with
    | paused r => simp [applyNotif, List.getLast?_concat]
    | resumed => simp [applyNotif, List.getLast?_concat]

/-- C4 (counterexample): a process terminated by a signal emits `exit`
with a null code before the deadline; the exit listener's `code !== null`
guard skips it, and discovery subsequently fails with the timeout error,
not the early-exit error. -/
theorem c4_counterexample :
    (runDisc [DiscEvent.exit none, DiscEvent.timerFire]).settled
      = some (Outcome.rejected timeoutMsg) := by decide

/-- C4 (amended): if, while discovery is still unsettled, the process
emits `exit` with a non-null code or a spawn-level `error`, discovery
settles with the corresponding early-exit or launch rejection and never
with the timeout error, regardless of later events; termination by signal
(null exit code) is not covered by the exit listener. -/
theorem c4_early_exit_precedence (pre post : List DiscEvent) (c : Nat)
    (m : List Char) (h : (runDisc pre).settled = none) :
    (runDisc (pre ++ DiscEvent.exit (some c) :: post)).settled
      = some (Outcome.rejected (exitMsg c)) ∧
    (runDisc (pre ++ DiscEvent.error m :: post)).settled
      = some (Outcome.rejected m) := by
  constructor
  · have hsplit : runDisc (pre ++ DiscEvent.exit (some c) :: post)
        = runDiscFrom (discStep (runDisc pre) (DiscEvent.exit (some c))) post := by
      unfold runDisc runDiscFrom
      rw [List.foldl_append]
      rfl
    rw [hsplit]
    exact runDiscFrom_settled_mono _ post _ (by simp [discStep, h, settle])
  · have hsplit : runDisc (pre ++ DiscEvent.error m :: post)
        = runDiscFrom (discStep (runDisc pre) (DiscEvent.error m)) post := by
      unfold runDisc runDiscFrom
      rw [List.foldl_append]
      rfl
    rw [hsplit]
    exact runDiscFrom_settled_mono _ post _ (by simp [discStep, h, settle])

/-- Concrete application of the C4 theorem: after one non-matching chunk,
an exit with code 3 (resp. a spawn error) wins over a later timer firing. -/
theorem c4_early_exit_precedence_witness :
    (runDisc [DiscEvent.data ['x']]).settled = none ∧
    ((runDisc ([DiscEvent.data ['x']]
        ++ DiscEvent.exit (some 3) :: [DiscEvent.timerFire])).settled
      = some (Outcome.rejected (exitMsg 3)) ∧
     (runDisc ([DiscEvent.data ['x']]
        ++ DiscEvent.error ['e'] :: [DiscEvent.timerFire])).settled
      = some (Outcome.rejected ['e'])) :=
  ⟨by decide,
   c4_early_exit_precedence [DiscEvent.data ['x']] [DiscEvent.timerFire] 3 ['e']
     (by decide)⟩

/-- C6 (counterexample): after a matching chunk settles discovery, a
further stderr chunk still fires the data listener (the listeners are
registered with `.on` and never removed), observably growing the
accumulated buffer — so it is not the case that no handler fires after
settlement. -/
theorem c6_counterexample :
    (runDisc [DiscEvent.data "ws://x ".toList]).settled
      = some (Outcome.resolved "ws://x".toList) ∧
    handlerFires (runDisc [DiscEvent.data "ws://x ".toList])
      (DiscEvent.data ['y']) = true ∧
    (discStep (runDisc [DiscEvent.data "ws://x ".toList])
        (DiscEvent.data ['y'])).buf
      ≠ (runDisc [DiscEvent.data "ws://x ".toList]).buf := by decide

/-- C6 (amended): once whichever terminal condition fires first settles
the discovery result, the settled outcome never changes under any later
events (a settled promise ignores further resolve/reject calls) and the
timeout callback never fires after settlement (every settling path clears
the timer); the data, error and exit listeners, however, stay attached and
may still run. -/
theorem c6_settlement (evs rest : List DiscEvent) (o : Outcome)
    (h : (runDisc evs).settled = some o) :
    (runDiscFrom (runDisc evs) rest).settled = some o ∧
    timerFiresDuring (runDisc evs) rest = false :=
  ⟨runDiscFrom_settled_mono _ rest o h,
   timerFiresDuring_none rest (runDisc evs) o (runDisc_inv evs) h⟩

/-- Concrete application of the C6 theorem: after a match, a pending-timer
event and another chunk neither change the outcome nor fire the timer. -/
theorem c6_settlement_witness :
    (runDisc [DiscEvent.data "ws://x ".toList]).settled
      = some (Outcome.resolved "ws://x".toList) ∧
    ((runDiscFrom (runDisc [DiscEvent.data "ws://x ".toList])
        [DiscEvent.timerFire, DiscEvent.data ['z']]).settled
      = some (Outcome.resolved "ws://x".toList) ∧
     timerFiresDuring (runDisc [DiscEvent.data "ws://x ".toList])
        [DiscEvent.timerFire, DiscEvent.data ['z']] = false) :=
  ⟨by decide,
   c6_settlement [DiscEvent.data "ws://x ".toList]
     [DiscEvent.timerFire, DiscEvent.data ['z']]
     (Outcome.resolved "ws://x".toList) (by decide)⟩

/-- C9 (counterexample): when the deadline elapses after a partial chunk,
the captured output sits in the accumulated buffer but the timeout
rejection carries only the fixed message, which does not contain that
partial output. -/
theorem c9_counterexample :
    (runDisc [DiscEvent.data "partial output".toList,
        DiscEvent.timerFire]).settled
      = some (Outcome.rejected timeoutMsg) ∧
    (runDisc [DiscEvent.data "partial output".toList,
        DiscEvent.timerFire]).buf = "partial output".toList ∧
    hasSeq "partial output".toList timeoutMsg = false := by decide

/-- C9 (amended): whenever the deadline elapses while discovery is still
unsettled, the failure carries exactly the fixed message
"Timeout waiting for inspector WebSocket URL", independent of whatever
partial output was captured; the captured output is not included. -/
theorem c9_timeout_message (pre : List DiscEvent)
    (h : (runDisc pre).settled = none) :
    (runDisc (pre ++ [DiscEvent.timerFire])).settled
      = some (Outcome.rejected timeoutMsg) := by
  have hsplit : runDisc (pre ++ [DiscEvent.timerFire])
      = discStep (runDisc pre) DiscEvent.timerFire := by
    unfold runDisc runDiscFrom
    rw [List.foldl_append]
    rfl
  rw [hsplit]
  have hta : (runDisc pre).timerActive = true := (runDisc_inv pre).mpr h
  simp [discStep, hta, h, settle]

/-- Concrete application of the C9 theorem: one non-matching chunk, then
the deadline; the rejection is the fixed timeout message. -/
theorem c9_timeout_message_witness :
    (runDisc [DiscEvent.data ['p']]).settled = none ∧
    (runDisc ([DiscEvent.data ['p']] ++ [DiscEvent.timerFire])).settled
      = some (Outcome.rejected timeoutMsg) :=
  ⟨by decide, c9_timeout_message [DiscEvent.data ['p']] (by decide)⟩

/-- C1: whenever any stage of `debug/start_session` fails (discovery
rejection — covering spawn errors, early exit and timeout — connection
failure, or either domain enable failing), the handler returns with the
registry unchanged (no session registered, not even partially) and a
single error-flagged result whose message is the fixed prefix followed by
the failing stage's message; the model is total on settled runs, so no
exception escapes the handler. -/
theorem c1_stage_failure (st : OrchState) (cfg : Config) (env : Env)
    (m : List Char) (h : firstFailure env = some m) :
    ∃ led, startSession st cfg env
        = some (st, ToolResult.error (failMsgPre ++ m), led) := by
  unfold firstFailure at h
  unfold startSession
  revert h
  cases (runDisc env.discEvents).settled with
  | none => intro h; exact absurd h (by simp)
  | some o =>
    cases o with
    | rejected m2 =>
      intro h
      simp only [Option.some.injEq] at h
      subst h
      exact ⟨ConnLedger.mk false false, rfl⟩
    | resolved u =>
      cases env.connect with
      | error mc =>
        intro h
        simp only [Option.some.injEq] at h
        subst h
        exact ⟨ConnLedger.mk false false, rfl⟩
      | ok u1 =>
        cases env.dbgEnable with
        | error md =>
          intro h
          simp only [Option.some.injEq] at h
          subst h
          exact ⟨ConnLedger.mk true false, rfl⟩
        | ok u2 =>
          cases env.rtEnable with
          | error mr =>
            intro h
            simp only [Option.some.injEq] at h
            subst h
            exact ⟨ConnLedger.mk true false, rfl⟩
          | ok u3 =>
            intro h
            exact absurd h (by simp)

/-- Concrete application of the C1 theorem: a timed-out discovery yields
an error result wrapping the timeout message and leaves the registry
empty. -/
theorem c1_stage_failure_witness :
    firstFailure envTimeout = some timeoutMsg ∧
    (∃ led, startSession orchInit cfgW envTimeout
        = some (orchInit, ToolResult.error (failMsgPre ++ timeoutMsg), led)) :=
  ⟨by decide, c1_stage_failure orchInit cfgW envTimeout timeoutMsg (by decide)⟩

/-- C5 (counterexample): with discovery and connection succeeded and
`Debugger.enable()` rejecting, the call returns an error-flagged result
but the opened connection is never closed (`closed := false`): the catch
block contains no `client.close()`. -/
theorem c5_counterexample :
    startSession orchInit cfgW envEnableFail
      = some (orchInit, ToolResult.error (failMsgPre ++ "boom".toList),
          ConnLedger.mk true false) ∧
    (ConnLedger.mk true false).closed = false :=
  ⟨by decide, rfl⟩

/-- C5 (amended): if the connection succeeds and either domain enable
fails, the whole establishment fails with a single error result wrapping
that failure's message and the registry is untouched — but the connection
is left open, not closed, when the operation returns. -/
theorem c5_enable_failure (st : OrchState) (cfg : Config) (env : Env)
    (m u : List Char)
    (hd : (runDisc env.discEvents).settled = some (Outcome.resolved u))
    (hc : env.connect = Except.ok ())
    (he : env.dbgEnable = Except.error m ∨
      (env.dbgEnable = Except.ok () ∧ env.rtEnable = Except.error m)) :
    startSession st cfg env
      = some (st, ToolResult.error (failMsgPre ++ m), ConnLedger.mk true false) := by
  unfold startSession
  rw [hd, hc]
  rcases he with he1 | ⟨he1, he2⟩
  · rw [he1]
  · rw [he1, he2]

/-- Concrete application of the C5 theorem: `Debugger.enable()` rejecting
with "boom" yields the wrapped error and an open, unclosed connection. -/
theorem c5_enable_failure_witness :
    (runDisc envEnableFail.discEvents).settled
      = some (Outcome.resolved "ws://u".toList) ∧
    envEnableFail.connect = Except.ok () ∧
    envEnableFail.dbgEnable = Except.error "boom".toList ∧
    startSession orchInit cfgW envEnableFail
      = some (orchInit, ToolResult.error (failMsgPre ++ "boom".toList),
          ConnLedger.mk true false) :=
  ⟨by decide, rfl, rfl,
   c5_enable_failure orchInit cfgW envEnableFail "boom".toList "ws://u".toList
     (by decide) rfl (Or.inl rfl)⟩

/-- C7 (counterexample): registering a session under an id that is
already present does not fail with a duplicate-session-id error — the
line `sessions.set(sessionId, session)` has no duplicate check and
overwrites the existing entry. -/
theorem c7_counterexample :
    mapSet [(['a'], sessA)] ['a'] sessB = [(['a'], sessB)] ∧
    sessB ≠ sessA :=
  ⟨by decide, by decide⟩

/-- C7 (amended): registration via `sessions.set` always succeeds and
installs the given session under the given key, overwriting any existing
entry with that id (JavaScript `Map.set` semantics); no duplicate-id
error exists in the code. -/
theorem c7_register_overwrites {α : Type} (m : List (List Char × α))
    (k : List Char) (v : α) : mapGet (mapSet m k v) k = some v :=
  mapGet_mapSet m k v

/-- C8 (counterexample): two consecutive start-session calls for which the
generator draws the same `Date.now()` reading and the same random suffix
return the same session id, so the resulting ids are not pairwise
distinct for all values the generator may produce. -/
theorem c8_counterexample :
    twoStartIds = some [sidW, sidW] ∧
    ¬ List.Pairwise (fun a b : List Char => a ≠ b) [sidW, sidW] :=
  ⟨by decide, by decide⟩

/-- C8 (amended): the session ids of a sequence of start-session calls are
pairwise distinct provided the (`Date.now()`, random-suffix) input pairs of
the generator are pairwise distinct — the encoding
`pid-now-rand` is injective in `(now, rand)` for a fixed pid — but equal
generator inputs yield equal ids. -/
theorem c8_distinct_ids (pid : Nat) (pairs : List (Nat × List Char))
    (hp : pairs.Pairwise (fun a b => a ≠ b)) :
    (pairs.map (fun pr => genSessionId pid pr.1 pr.2)).Pairwise
      (fun a b => a ≠ b) := by
  rw [List.pairwise_map]
  refine hp.imp ?_
  intro a b hab hgen
  obtain ⟨a1, a2⟩ := a
  obtain ⟨b1, b2⟩ := b
  have hinj := genSessionId_inj pid a1 b1 a2 b2 hgen
  exact hab (by rw [hinj.1, hinj.2])

/-- Concrete application of the C8 theorem: distinct generator inputs give
distinct ids. -/
theorem c8_distinct_ids_witness :
    List.Pairwise (fun a b => a ≠ b)
      ([(100, ['x']), (101, ['y'])] : List (Nat × List Char)) ∧
    (([(100, ['x']), (101, ['y'])] : List (Nat × List Char)).map
        (fun pr => genSessionId 9 pr.1 pr.2)).Pairwise (fun a b => a ≠ b) :=
  ⟨by decide, c8_distinct_ids 9 [(100, ['x']), (101, ['y'])] (by decide)⟩

/-- C10: every successful start-session call stores, under the returned
payload's session id, a session whose id equals that key, whose wsUrl and
pid equal the payload's, constructed with an empty breakpoints map and no
last-paused snapshot; the payload's pid is the spawned child's and its
runner/entry echo the configuration; and the session's breakpoints-map
identity is fresh — distinct from that of every previously registered
session. -/
theorem c10_success_registration (st st2 : OrchState) (cfg : Config)
    (env : Env) (pay : StartPayload) (led : ConnLedger)
    (hinv : regInv st)
    (h : startSession st cfg env = some (st2, ToolResult.ok pay, led)) :
    ∃ s, mapGet st2.sessions pay.sessionId = some s ∧
      s.id = pay.sessionId ∧ s.wsUrl = pay.wsUrl ∧ s.pid = pay.pid ∧
      s.breakpoints = [] ∧ s.lastPaused = none ∧
      pay.pid = env.childPid ∧ pay.runner = cfg.runner ∧
      pay.entry = cfg.entry ∧
      ∀ kv ∈ st.sessions, kv.2.bpRef ≠ s.bpRef := by
  unfold startSession at h
  revert h
  cases (runDisc env.discEvents).settled with
  | none => intro h; exact absurd h (by simp)
  | some o =>
    cases o with
    | rejected m2 => intro h; simp at h
    | resolved u =>
      cases env.connect with
      | error mc => intro h; simp at h
      | ok u1 =>
        cases env.dbgEnable with
        | error md => intro h; simp at h
        | ok u2 =>
          cases env.rtEnable with
          | error mr => intro h; simp at h
          | ok u3 =>
            intro h
            simp only [Option.some.injEq, Prod.mk.injEq,
              ToolResult.ok.injEq] at h
            obtain ⟨hst2, hpay, hled⟩ := h
            subst hst2
            subst hpay
            refine ⟨Session.mk (genSessionId env.serverPid env.now env.rand) u
              env.childPid st.nextRef [] none,
              mapGet_mapSet st.sessions _ _, rfl, rfl, rfl, rfl, rfl, rfl,
              rfl, rfl, ?_⟩
            intro kv hkv
            have := hinv kv hkv
            show kv.2.bpRef ≠ st.nextRef
            omega

/-- Concrete application of the C10 theorem: one successful call from the
empty registry registers `9-100-xy` keyed by itself, with empty
breakpoints, no pause snapshot, and a fresh map identity. -/
theorem c10_success_registration_witness :
    regInv orchInit ∧
    startSession orchInit cfgW envOk
      = some (stW, ToolResult.ok payW, ConnLedger.mk true false) ∧
    (∃ s, mapGet stW.sessions payW.sessionId = some s ∧
      s.id = payW.sessionId ∧ s.wsUrl = payW.wsUrl ∧ s.pid = payW.pid ∧
      s.breakpoints = [] ∧ s.lastPaused = none ∧
      payW.pid = envOk.childPid ∧ payW.runner = cfgW.runner ∧
      payW.entry = cfgW.entry ∧
      ∀ kv ∈ orchInit.sessions, kv.2.bpRef ≠ s.bpRef) := by
  have hinv : regInv orchInit := by
    intro kv hkv
    simp [orchInit] at hkv
  have hrun : startSession orchInit cfgW envOk
      = some (stW, ToolResult.ok payW, ConnLedger.mk true false) := by decide
  exact ⟨hinv, hrun,
    c10_success_registration orchInit stW cfgW envOk payW
      (ConnLedger.mk true false) hinv hrun⟩

end Debuggee
